import Mathlib

/-!
Verification of the `nat_traversal` repository's subnetting utilities and of
the spec-level contracts of its proposed NAT-traversal API.

The subnetting definitions (`Ipv4Addr.apply_netmask`, `Ipv6Addr.apply_netmask`,
`Ipv4Subnet`, `Ipv6Subnet`) are shallow embeddings of
`src/subnetting/apply_netmask.rs`, `src/subnetting/ipv4.rs` and
`src/subnetting/ipv6.rs`.  Machine integers (`u8`, `u16`) are represented as
`Nat` with explicit `% 256` / `% 65536` truncation where the Rust code casts,
and Rust's `saturating_sub` is Nat's truncated subtraction.
-/

namespace NatTraversal

/-- An IPv4 address as four octets (`u8` values, so each field is `< 256`
for values arising from the Rust type; `valid` records that bound). -/
structure Ipv4Addr where
  o0 : Nat
  o1 : Nat
  o2 : Nat
  o3 : Nat
deriving DecidableEq, Repr

/-- The `u8` range constraint carried by the Rust type `Ipv4Addr`. -/
def Ipv4Addr.valid (a : Ipv4Addr) : Prop :=
  a.o0 < 256 ∧ a.o1 < 256 ∧ a.o2 < 256 ∧ a.o3 < 256

instance (a : Ipv4Addr) : Decidable a.valid := by
  unfold Ipv4Addr.valid; infer_instance

/-- An IPv6 address as eight 16-bit segments (`u16` values). -/
structure Ipv6Addr where
  s0 : Nat
  s1 : Nat
  s2 : Nat
  s3 : Nat
  s4 : Nat
  s5 : Nat
  s6 : Nat
  s7 : Nat
deriving DecidableEq, Repr

/-- The `u16` range constraint carried by the Rust type `Ipv6Addr`. -/
def Ipv6Addr.valid (a : Ipv6Addr) : Prop :=
  a.s0 < 65536 ∧ a.s1 < 65536 ∧ a.s2 < 65536 ∧ a.s3 < 65536 ∧
  a.s4 < 65536 ∧ a.s5 < 65536 ∧ a.s6 < 65536 ∧ a.s7 < 65536

instance (a : Ipv6Addr) : Decidable a.valid := by
  unfold Ipv6Addr.valid; infer_instance

/-- `ApplyNetmaskError` from `src/subnetting/apply_netmask.rs`. -/
inductive ApplyNetmaskError where
  | OutOfRange (netmask_bits addr_len : Nat)
deriving DecidableEq, Repr

/-- The per-octet mask `(0xffu32 << 8u8.saturating_sub(netmask_bits.saturating_sub(off))) as u8`
from the IPv4 `apply_netmask` implementation.  Nat subtraction is saturating,
the `u32` shift never overflows (the shift amount is at most 8), and the
`as u8` cast is `% 256`. -/
def mask8 (netmask_bits off : Nat) : Nat :=
  (0xff <<< (8 - (netmask_bits - off))) % 256

/-- The per-segment mask `(0xffffu32 << 16u8.saturating_sub(netmask_bits.saturating_sub(off))) as u16`
from the IPv6 `apply_netmask` implementation. -/
def mask16 (netmask_bits off : Nat) : Nat :=
  (0xffff <<< (16 - (netmask_bits - off))) % 65536

/-- `<Ipv4Addr as ApplyNetmask>::apply_netmask` from `src/subnetting/apply_netmask.rs`. -/
def Ipv4Addr.apply_netmask (a : Ipv4Addr) (netmask_bits : Nat) :
    Except ApplyNetmaskError Ipv4Addr :=
  if netmask_bits > 32 then
    .error (.OutOfRange netmask_bits 32)
  else
    .ok ⟨a.o0 &&& mask8 netmask_bits 0,
         a.o1 &&& mask8 netmask_bits 8,
         a.o2 &&& mask8 netmask_bits 16,
         a.o3 &&& mask8 netmask_bits 24⟩

/-- `<Ipv6Addr as ApplyNetmask>::apply_netmask` from `src/subnetting/apply_netmask.rs`. -/
def Ipv6Addr.apply_netmask (a : Ipv6Addr) (netmask_bits : Nat) :
    Except ApplyNetmaskError Ipv6Addr :=
  if netmask_bits > 128 then
    .error (.OutOfRange netmask_bits 128)
  else
    .ok ⟨a.s0 &&& mask16 netmask_bits 0,
         a.s1 &&& mask16 netmask_bits 16,
         a.s2 &&& mask16 netmask_bits 32,
         a.s3 &&& mask16 netmask_bits 48,
         a.s4 &&& mask16 netmask_bits 64,
         a.s5 &&& mask16 netmask_bits 80,
         a.s6 &&& mask16 netmask_bits 96,
         a.s7 &&& mask16 netmask_bits 112⟩

/-- Octet `k` of an IPv4 address (0-indexed from the most significant octet). -/
def Ipv4Addr.octet (a : Ipv4Addr) : Nat → Nat
  | 0 => a.o0
  | 1 => a.o1
  | 2 => a.o2
  | _ => a.o3

/-- Segment `k` of an IPv6 address (0-indexed from the most significant segment). -/
def Ipv6Addr.segment (a : Ipv6Addr) : Nat → Nat
  | 0 => a.s0
  | 1 => a.s1
  | 2 => a.s2
  | 3 => a.s3
  | 4 => a.s4
  | 5 => a.s5
  | 6 => a.s6
  | _ => a.s7

/-- Bit `i` of an IPv4 address counting from the most significant bit
(`i = 0` is the top bit of the first octet). -/
def Ipv4Addr.msbBit (a : Ipv4Addr) (i : Nat) : Bool :=
  Nat.testBit (a.octet (i / 8)) (7 - i % 8)

/-- Bit `i` of an IPv6 address counting from the most significant bit. -/
def Ipv6Addr.msbBit (a : Ipv6Addr) (i : Nat) : Bool :=
  Nat.testBit (a.segment (i / 16)) (15 - i % 16)

/-! ### Core arithmetic about the masks -/

/-- The truncated mask `((2^w - 1) <<< s) % 2^w` is the "keep the top `w - s`
bits" mask `2^w - 2^s`. -/
theorem shifted_ones_mod (w s : Nat) (hs : s ≤ w) :
    ((2 ^ w - 1) <<< s) % 2 ^ w = 2 ^ w - 2 ^ s := by
  have hsw : 2 ^ s ≤ 2 ^ w := Nat.pow_le_pow_right (by norm_num) hs
  have h1 : 1 ≤ 2 ^ s := Nat.one_le_two_pow
  have hsplit : (2 ^ w - 1) <<< s = 2 ^ w * (2 ^ s - 1) + (2 ^ w - 2 ^ s) := by
    rw [Nat.shiftLeft_eq]
    have hprod : ∀ A B : Nat, 1 ≤ A → A ≤ B → (B - 1) * A = B * (A - 1) + (B - A) := by
      intro A B hA hAB
      obtain ⟨k, rfl⟩ := Nat.exists_eq_add_of_le hA
      obtain ⟨m, rfl⟩ := Nat.exists_eq_add_of_le hAB
      have e1 : 1 + k + m - 1 = k + m := by omega
      have e2 : 1 + k - 1 = k := by omega
      have e3 : 1 + k + m - (1 + k) = m := by omega
      rw [e1, e2, e3]
      ring
    exact hprod (2 ^ s) (2 ^ w) h1 hsw
  rw [hsplit, Nat.mul_add_mod]
  exact Nat.mod_eq_of_lt (by omega)

/-- Bitwise characterisation of `o / 2^s * 2^s` (zeroing the `s` low bits). -/
theorem testBit_div_mul_pow (o s p : Nat) :
    Nat.testBit (o / 2 ^ s * 2 ^ s) p = (decide (s ≤ p) && Nat.testBit o p) := by
  have h : o / 2 ^ s * 2 ^ s = (o >>> s) <<< s := by
    rw [Nat.shiftRight_eq_div_pow, Nat.shiftLeft_eq]
  rw [h, Nat.testBit_shiftLeft, Nat.testBit_shiftRight]
  by_cases hsp : s ≤ p
  · have hp : s + (p - s) = p := by omega
    simp [hsp, hp]
  · simp [hsp]

/-- ANDing a `w`-bit value with the truncated shifted-ones mask zeroes the
`s` low bits. -/
theorem land_shifted_ones (w s o : Nat) (hs : s ≤ w) (ho : o < 2 ^ w) :
    o &&& ((2 ^ w - 1) <<< s) % 2 ^ w = o / 2 ^ s * 2 ^ s := by
  rw [shifted_ones_mod w s hs]
  have hmask : 2 ^ w - 2 ^ s = (2 ^ (w - s) - 1) <<< s := by
    rw [Nat.shiftLeft_eq]
    have hpow : 2 ^ (w - s) * 2 ^ s = 2 ^ w := by
      rw [← Nat.pow_add]
      congr 1
      omega
    have h1 : 1 ≤ 2 ^ (w - s) := Nat.one_le_two_pow
    calc 2 ^ w - 2 ^ s = 2 ^ (w - s) * 2 ^ s - 1 * 2 ^ s := by rw [hpow, Nat.one_mul]
    _ = (2 ^ (w - s) - 1) * 2 ^ s := by rw [Nat.sub_mul]
  apply Nat.eq_of_testBit_eq
  intro p
  rw [Nat.testBit_and, hmask, Nat.testBit_shiftLeft, Nat.testBit_two_pow_sub_one,
    testBit_div_mul_pow]
  by_cases hsp : s ≤ p
  · by_cases hpw : p < w
    · have : p - s < w - s := by omega
      simp [hsp, this]
    · have hfalse : Nat.testBit o p = false :=
        Nat.testBit_lt_two_pow
          (lt_of_lt_of_le ho (Nat.pow_le_pow_right (by norm_num) (by omega)))
      simp [hfalse]
  · simp [hsp]

/-- The masked IPv4 octet keeps exactly the high bits the netmask covers. -/
theorem land_mask8 (o n off : Nat) (ho : o < 256) :
    o &&& mask8 n off = o / 2 ^ (8 - (n - off)) * 2 ^ (8 - (n - off)) := by
  have h : mask8 n off = ((2 ^ 8 - 1) <<< (8 - (n - off))) % 2 ^ 8 := rfl
  rw [h]
  exact land_shifted_ones 8 (8 - (n - off)) o (by omega) ho

/-- The masked IPv6 segment keeps exactly the high bits the netmask covers. -/
theorem land_mask16 (o n off : Nat) (ho : o < 65536) :
    o &&& mask16 n off = o / 2 ^ (16 - (n - off)) * 2 ^ (16 - (n - off)) := by
  have h : mask16 n off = ((2 ^ 16 - 1) <<< (16 - (n - off))) % 2 ^ 16 := rfl
  rw [h]
  exact land_shifted_ones 16 (16 - (n - off)) o (by omega) ho

/-- Bit-level behaviour of a masked octet, phrased on `testBit`. -/
theorem testBit_land_mask8 (o n off p : Nat) (ho : o < 256) :
    Nat.testBit (o &&& mask8 n off) p
      = (decide (8 - (n - off) ≤ p) && Nat.testBit o p) := by
  rw [land_mask8 o n off ho, testBit_div_mul_pow]

/-- Bit-level behaviour of a masked segment, phrased on `testBit`. -/
theorem testBit_land_mask16 (o n off p : Nat) (ho : o < 65536) :
    Nat.testBit (o &&& mask16 n off) p
      = (decide (16 - (n - off) ≤ p) && Nat.testBit o p) := by
  rw [land_mask16 o n off ho, testBit_div_mul_pow]

instance {ε α : Type} [DecidableEq ε] [DecidableEq α] : DecidableEq (Except ε α)
  | .error e, .error f =>
    if h : e = f then isTrue (by rw [h]) else isFalse (fun hc => by cases hc; exact h rfl)
  | .error _, .ok _ => isFalse (fun hc => by cases hc)
  | .ok _, .error _ => isFalse (fun hc => by cases hc)
  | .ok a, .ok b =>
    if h : a = b then isTrue (by rw [h]) else isFalse (fun hc => by cases hc; exact h rfl)

/-! ### `apply_netmask` agrees with the reference "retain the first n bits" definition -/

/-- The IPv4 `apply_netmask` keeps bit `i` (counting from the most significant
bit) exactly when `i < netmask_bits`, and zeroes it otherwise. -/
theorem apply_netmask4_msbBit (a : Ipv4Addr) (n i : Nat)
    (ha : a.valid) (hn : n ≤ 32) (hi : i < 32) :
    (a.apply_netmask n).map (fun m => m.msbBit i)
      = .ok (decide (i < n) && a.msbBit i) := by
  obtain ⟨h0, h1, h2, h3⟩ := ha
  unfold Ipv4Addr.apply_netmask
  rw [if_neg (by omega)]
  simp only [Except.map, Except.ok.injEq]
  unfold Ipv4Addr.msbBit
  have hk : i / 8 = 0 ∨ i / 8 = 1 ∨ i / 8 = 2 ∨ i / 8 = 3 := by omega
  rcases hk with hk | hk | hk | hk
  · rw [hk]
    simp only [Ipv4Addr.octet]
    rw [testBit_land_mask8 _ _ _ _ h0]
    congr 1
    rw [decide_eq_decide]
    omega
  · rw [hk]
    simp only [Ipv4Addr.octet]
    rw [testBit_land_mask8 _ _ _ _ h1]
    congr 1
    rw [decide_eq_decide]
    omega
  · rw [hk]
    simp only [Ipv4Addr.octet]
    rw [testBit_land_mask8 _ _ _ _ h2]
    congr 1
    rw [decide_eq_decide]
    omega
  · rw [hk]
    simp only [Ipv4Addr.octet]
    rw [testBit_land_mask8 _ _ _ _ h3]
    congr 1
    rw [decide_eq_decide]
    omega

/-- The IPv6 `apply_netmask` keeps bit `i` (counting from the most significant
bit) exactly when `i < netmask_bits`, and zeroes it otherwise. -/
theorem apply_netmask6_msbBit (a : Ipv6Addr) (n i : Nat)
    (ha : a.valid) (hn : n ≤ 128) (hi : i < 128) :
    (a.apply_netmask n).map (fun m => m.msbBit i)
      = .ok (decide (i < n) && a.msbBit i) := by
  obtain ⟨h0, h1, h2, h3, h4, h5, h6, h7⟩ := ha
  unfold Ipv6Addr.apply_netmask
  rw [if_neg (by omega)]
  simp only [Except.map, Except.ok.injEq]
  unfold Ipv6Addr.msbBit
  have hk : i / 16 = 0 ∨ i / 16 = 1 ∨ i / 16 = 2 ∨ i / 16 = 3 ∨
      i / 16 = 4 ∨ i / 16 = 5 ∨ i / 16 = 6 ∨ i / 16 = 7 := by omega
  rcases hk with hk | hk | hk | hk | hk | hk | hk | hk
  · rw [hk]
    simp only [Ipv6Addr.segment]
    rw [testBit_land_mask16 _ _ _ _ h0]
    congr 1
    rw [decide_eq_decide]
    omega
  · rw [hk]
    simp only [Ipv6Addr.segment]
    rw [testBit_land_mask16 _ _ _ _ h1]
    congr 1
    rw [decide_eq_decide]
    omega
  · rw [hk]
    simp only [Ipv6Addr.segment]
    rw [testBit_land_mask16 _ _ _ _ h2]
    congr 1
    rw [decide_eq_decide]
    omega
  · rw [hk]
    simp only [Ipv6Addr.segment]
    rw [testBit_land_mask16 _ _ _ _ h3]
    congr 1
    rw [decide_eq_decide]
    omega
  · rw [hk]
    simp only [Ipv6Addr.segment]
    rw [testBit_land_mask16 _ _ _ _ h4]
    congr 1
    rw [decide_eq_decide]
    omega
  · rw [hk]
    simp only [Ipv6Addr.segment]
    rw [testBit_land_mask16 _ _ _ _ h5]
    congr 1
    rw [decide_eq_decide]
    omega
  · rw [hk]
    simp only [Ipv6Addr.segment]
    rw [testBit_land_mask16 _ _ _ _ h6]
    congr 1
    rw [decide_eq_decide]
    omega
  · rw [hk]
    simp only [Ipv6Addr.segment]
    rw [testBit_land_mask16 _ _ _ _ h7]
    congr 1
    rw [decide_eq_decide]
    omega

/-- `apply_netmask` on IPv4 succeeds only for netmask lengths at most 32. -/
theorem apply_netmask4_ok_le (a : Ipv4Addr) (n : Nat) (m : Ipv4Addr)
    (h : a.apply_netmask n = .ok m) : n ≤ 32 := by
  by_contra hn
  unfold Ipv4Addr.apply_netmask at h
  rw [if_pos (by omega)] at h
  cases h

/-- `apply_netmask` on IPv6 succeeds only for netmask lengths at most 128. -/
theorem apply_netmask6_ok_le (a : Ipv6Addr) (n : Nat) (m : Ipv6Addr)
    (h : a.apply_netmask n = .ok m) : n ≤ 128 := by
  by_contra hn
  unfold Ipv6Addr.apply_netmask at h
  rw [if_pos (by omega)] at h
  cases h

/-- ANDing twice with the same mask is the same as ANDing once. -/
theorem land_land_self (x y : Nat) : (x &&& y) &&& y = x &&& y :=
  Nat.eq_of_testBit_eq fun i => by
    simp [Nat.testBit_and, Bool.and_assoc]

/-- Masking an already-masked IPv4 address with the same netmask is a no-op. -/
theorem apply_netmask4_idem (a : Ipv4Addr) (n : Nat) (m : Ipv4Addr)
    (h : a.apply_netmask n = .ok m) : m.apply_netmask n = .ok m := by
  have hn : n ≤ 32 := apply_netmask4_ok_le a n m h
  unfold Ipv4Addr.apply_netmask at h ⊢
  rw [if_neg (by omega)] at h ⊢
  cases h
  simp [land_land_self]

/-- Masking an already-masked IPv6 address with the same netmask is a no-op. -/
theorem apply_netmask6_idem (a : Ipv6Addr) (n : Nat) (m : Ipv6Addr)
    (h : a.apply_netmask n = .ok m) : m.apply_netmask n = .ok m := by
  have hn : n ≤ 128 := apply_netmask6_ok_le a n m h
  unfold Ipv6Addr.apply_netmask at h ⊢
  rw [if_neg (by omega)] at h ⊢
  cases h
  simp [land_land_self]

/-- C1: for every IPv4 address and every netmask length `n ≤ 32`,
`apply_netmask` returns `Ok` of the address whose bit `i` (from the most
significant bit) equals bit `i` of the input when `i < n` and is `0` when
`i ≥ n`; likewise for IPv6 with `n ≤ 128`.  `apply_netmask` therefore equals
the reference definition "retain the first `n` bits, zero the rest". -/
theorem C1_apply_netmask_matches_reference :
    (∀ (a : Ipv4Addr) (n i : Nat), a.valid → n ≤ 32 → i < 32 →
      (a.apply_netmask n).map (fun m => m.msbBit i)
        = .ok (decide (i < n) && a.msbBit i)) ∧
    (∀ (a : Ipv6Addr) (n i : Nat), a.valid → n ≤ 128 → i < 128 →
      (a.apply_netmask n).map (fun m => m.msbBit i)
        = .ok (decide (i < n) && a.msbBit i)) :=
  ⟨fun a n i ha hn hi => apply_netmask4_msbBit a n i ha hn hi,
   fun a n i ha hn hi => apply_netmask6_msbBit a n i ha hn hi⟩

/-- Witness for C1 at concrete inputs: the IPv4 address `170.170.170.170`
with a 6-bit netmask (bit 5 is kept), and the IPv6 address `aaaa::` with a
14-bit netmask (bit 13 is kept). -/
theorem C1_witness :
    ((⟨170, 170, 170, 170⟩ : Ipv4Addr).valid ∧ (6 : Nat) ≤ 32 ∧ (5 : Nat) < 32 ∧
      ((⟨170, 170, 170, 170⟩ : Ipv4Addr).apply_netmask 6).map (fun m => m.msbBit 5)
        = .ok (decide (5 < 6) && (⟨170, 170, 170, 170⟩ : Ipv4Addr).msbBit 5)) ∧
    ((⟨0xaaaa, 0, 0, 0, 0, 0, 0, 0⟩ : Ipv6Addr).valid ∧ (14 : Nat) ≤ 128 ∧ (13 : Nat) < 128 ∧
      ((⟨0xaaaa, 0, 0, 0, 0, 0, 0, 0⟩ : Ipv6Addr).apply_netmask 14).map (fun m => m.msbBit 13)
        = .ok (decide (13 < 14) && (⟨0xaaaa, 0, 0, 0, 0, 0, 0, 0⟩ : Ipv6Addr).msbBit 13)) :=
  ⟨⟨by decide, by decide, by decide,
    C1_apply_netmask_matches_reference.1 _ 6 5 (by decide) (by decide) (by decide)⟩,
   ⟨by decide, by decide, by decide,
    C1_apply_netmask_matches_reference.2 _ 14 13 (by decide) (by decide) (by decide)⟩⟩

/-- C2: for every valid (address, netmask) pair with the netmask length in
range, masking is idempotent: masking the masked address with the same
netmask reproduces it. -/
theorem C2_apply_netmask_idempotent :
    (∀ (a : Ipv4Addr) (n : Nat) (m : Ipv4Addr), a.valid → n ≤ 32 →
      a.apply_netmask n = .ok m → m.apply_netmask n = .ok m) ∧
    (∀ (a : Ipv6Addr) (n : Nat) (m : Ipv6Addr), a.valid → n ≤ 128 →
      a.apply_netmask n = .ok m → m.apply_netmask n = .ok m) :=
  ⟨fun a n m _ _ h => apply_netmask4_idem a n m h,
   fun a n m _ _ h => apply_netmask6_idem a n m h⟩

/-- Witness for C2: `170.170.170.170/6` masks to `168.0.0.0`, which is a
fixed point of the same mask; similarly for `aaaa::/14`. -/
theorem C2_witness :
    ((⟨170, 170, 170, 170⟩ : Ipv4Addr).apply_netmask 6 = .ok ⟨168, 0, 0, 0⟩ ∧
      (⟨168, 0, 0, 0⟩ : Ipv4Addr).apply_netmask 6 = .ok ⟨168, 0, 0, 0⟩) ∧
    ((⟨0xaaaa, 0, 0, 0, 0, 0, 0, 0⟩ : Ipv6Addr).apply_netmask 14
        = .ok ⟨0xaaa8, 0, 0, 0, 0, 0, 0, 0⟩ ∧
      (⟨0xaaa8, 0, 0, 0, 0, 0, 0, 0⟩ : Ipv6Addr).apply_netmask 14
        = .ok ⟨0xaaa8, 0, 0, 0, 0, 0, 0, 0⟩) :=
  ⟨⟨by decide,
    C2_apply_netmask_idempotent.1 ⟨170, 170, 170, 170⟩ 6 ⟨168, 0, 0, 0⟩
      (by decide) (by decide) (by decide)⟩,
   ⟨by decide,
    C2_apply_netmask_idempotent.2 ⟨0xaaaa, 0, 0, 0, 0, 0, 0, 0⟩ 14
      ⟨0xaaa8, 0, 0, 0, 0, 0, 0, 0⟩ (by decide) (by decide) (by decide)⟩⟩

/-! ### `Ipv4Subnet` and `Ipv6Subnet` (src/subnetting/ipv4.rs, src/subnetting/ipv6.rs) -/

/-- `Ipv4Subnet` from `src/subnetting/ipv4.rs`. -/
structure Ipv4Subnet where
  base_addr : Ipv4Addr
  netmask_bits : Nat
deriving DecidableEq, Repr

/-- `Ipv4SubnetNewError` from `src/subnetting/ipv4.rs`. -/
inductive Ipv4SubnetNewError where
  | NetmaskOutOfRange (netmask_bits : Nat)
  | TrailingOnes (base_addr : Ipv4Addr) (netmask_bits : Nat)
deriving DecidableEq, Repr

/-- `Ipv6Subnet` from `src/subnetting/ipv6.rs`. -/
structure Ipv6Subnet where
  base_addr : Ipv6Addr
  netmask_bits : Nat
deriving DecidableEq, Repr

/-- `Ipv6SubnetNewError` from `src/subnetting/ipv6.rs`. -/
inductive Ipv6SubnetNewError where
  | NetmaskOutOfRange (netmask_bits : Nat)
  | TrailingOnes (base_addr : Ipv6Addr) (netmask_bits : Nat)
deriving DecidableEq, Repr

/-- `Ipv4Subnet::new`. -/
def Ipv4Subnet.new (base_addr : Ipv4Addr) (netmask_bits : Nat) :
    Except Ipv4SubnetNewError Ipv4Subnet :=
  match base_addr.apply_netmask netmask_bits with
  | .error (.OutOfRange n _) => .error (.NetmaskOutOfRange n)
  | .ok masked =>
    if masked ≠ base_addr then
      .error (.TrailingOnes base_addr netmask_bits)
    else
      .ok ⟨base_addr, netmask_bits⟩

/-- `Ipv6Subnet::new`. -/
def Ipv6Subnet.new (base_addr : Ipv6Addr) (netmask_bits : Nat) :
    Except Ipv6SubnetNewError Ipv6Subnet :=
  match base_addr.apply_netmask netmask_bits with
  | .error (.OutOfRange n _) => .error (.NetmaskOutOfRange n)
  | .ok masked =>
    if masked ≠ base_addr then
      .error (.TrailingOnes base_addr netmask_bits)
    else
      .ok ⟨base_addr, netmask_bits⟩

/-- `Ipv4Subnet::contains`.  The Rust code unwraps the `apply_netmask` result
(`unwrap_result!`), panicking if it is an error; the panic is modelled as
`none`. -/
def Ipv4Subnet.contains (s : Ipv4Subnet) (a : Ipv4Addr) : Option Bool :=
  match a.apply_netmask s.netmask_bits with
  | .ok masked => some (decide (masked = s.base_addr))
  | .error _ => none

/-- `Ipv6Subnet::contains`, with the `unwrap_result!` panic modelled as
`none`. -/
def Ipv6Subnet.contains (s : Ipv6Subnet) (a : Ipv6Addr) : Option Bool :=
  match a.apply_netmask s.netmask_bits with
  | .ok masked => some (decide (masked = s.base_addr))
  | .error _ => none

/-- `Ipv4Subnet::loopback`: 127.0.0.0/8. -/
def Ipv4Subnet.loopback : Ipv4Subnet :=
  ⟨⟨127, 0, 0, 0⟩, 8⟩

/-- `Ipv4Subnet::link_local`: 169.254.0.0/16. -/
def Ipv4Subnet.link_local : Ipv4Subnet :=
  ⟨⟨169, 254, 0, 0⟩, 16⟩

/-- `Ipv4Subnet::multicast`: 224.0.0.0/4. -/
def Ipv4Subnet.multicast : Ipv4Subnet :=
  ⟨⟨224, 0, 0, 0⟩, 4⟩

/-- `Ipv6Subnet::loopback`: ::1/128. -/
def Ipv6Subnet.loopback : Ipv6Subnet :=
  ⟨⟨0, 0, 0, 0, 0, 0, 0, 1⟩, 128⟩

/-- `Ipv6Subnet::link_local`: fe80::/10. -/
def Ipv6Subnet.link_local : Ipv6Subnet :=
  ⟨⟨0xfe80, 0, 0, 0, 0, 0, 0, 0⟩, 10⟩

/-- `Ipv6Subnet::multicast`: ff00::/8. -/
def Ipv6Subnet.multicast : Ipv6Subnet :=
  ⟨⟨0xff00, 0, 0, 0, 0, 0, 0, 0⟩, 8⟩

/-- The representation invariant of `Ipv4Subnet`: the netmask length is in
range and the base address has no one-bits beyond the netmask. -/
def Ipv4Subnet.inv (s : Ipv4Subnet) : Prop :=
  s.netmask_bits ≤ 32 ∧ s.base_addr.apply_netmask s.netmask_bits = .ok s.base_addr

/-- The representation invariant of `Ipv6Subnet`. -/
def Ipv6Subnet.inv (s : Ipv6Subnet) : Prop :=
  s.netmask_bits ≤ 128 ∧ s.base_addr.apply_netmask s.netmask_bits = .ok s.base_addr

instance (s : Ipv4Subnet) : Decidable s.inv := by
  unfold Ipv4Subnet.inv; infer_instance

instance (s : Ipv6Subnet) : Decidable s.inv := by
  unfold Ipv6Subnet.inv; infer_instance

/-- A successfully constructed `Ipv4Subnet` satisfies the invariant. -/
theorem Ipv4Subnet.new_ok_inv4 (a : Ipv4Addr) (n : Nat) (s : Ipv4Subnet)
    (h : Ipv4Subnet.new a n = .ok s) : s.inv := by
  unfold Ipv4Subnet.new at h
  rcases hm : a.apply_netmask n with e | masked
  · rw [hm] at h
    cases e
    cases h
  · rw [hm] at h
    dsimp only at h
    by_cases hne : masked ≠ a
    · rw [if_pos hne] at h
      cases h
    · rw [if_neg hne] at h
      cases h
      push_neg at hne
      subst hne
      exact ⟨apply_netmask4_ok_le _ _ _ hm, hm⟩

/-- A successfully constructed `Ipv6Subnet` satisfies the invariant. -/
theorem Ipv6Subnet.new_ok_inv6 (a : Ipv6Addr) (n : Nat) (s : Ipv6Subnet)
    (h : Ipv6Subnet.new a n = .ok s) : s.inv := by
  unfold Ipv6Subnet.new at h
  rcases hm : a.apply_netmask n with e | masked
  · rw [hm] at h
    cases e
    cases h
  · rw [hm] at h
    dsimp only at h
    by_cases hne : masked ≠ a
    · rw [if_pos hne] at h
      cases h
    · rw [if_neg hne] at h
      cases h
      push_neg at hne
      subst hne
      exact ⟨apply_netmask6_ok_le _ _ _ hm, hm⟩

/-- A masked octet where the netmask covers the whole octet is unchanged. -/
theorem land_mask8_keep (o n off : Nat) (ho : o < 256) (h : 8 ≤ n - off) :
    o &&& mask8 n off = o := by
  rw [land_mask8 o n off ho]
  have hz : 8 - (n - off) = 0 := by omega
  rw [hz]
  simp

/-- A masked octet where the netmask ends at or before the octet is zero. -/
theorem land_mask8_drop (o n off : Nat) (ho : o < 256) (h : n ≤ off) :
    o &&& mask8 n off = 0 := by
  rw [land_mask8 o n off ho]
  have hz : 8 - (n - off) = 8 := by omega
  rw [hz]
  have hd : o / 2 ^ 8 = 0 := Nat.div_eq_of_lt (by omega)
  rw [hd]
  simp

/-- `contains` of the loopback subnet tests the first octet for 127. -/
theorem loopback_contains_iff (a : Ipv4Addr) (ha : a.valid) :
    Ipv4Subnet.loopback.contains a = some (decide (a.o0 = 127)) := by
  obtain ⟨h0, h1, h2, h3⟩ := ha
  unfold Ipv4Subnet.contains Ipv4Subnet.loopback Ipv4Addr.apply_netmask
  dsimp only
  rw [if_neg (by omega)]
  dsimp only
  rw [land_mask8_keep _ _ _ h0 (by omega), land_mask8_drop _ _ _ h1 (by omega),
    land_mask8_drop _ _ _ h2 (by omega), land_mask8_drop _ _ _ h3 (by omega)]
  congr 1
  rw [decide_eq_decide, Ipv4Addr.mk.injEq]
  omega

/-- `contains` of the link-local subnet tests the first two octets for
169.254. -/
theorem link_local_contains_iff (a : Ipv4Addr) (ha : a.valid) :
    Ipv4Subnet.link_local.contains a = some (decide (a.o0 = 169 ∧ a.o1 = 254)) := by
  obtain ⟨h0, h1, h2, h3⟩ := ha
  unfold Ipv4Subnet.contains Ipv4Subnet.link_local Ipv4Addr.apply_netmask
  dsimp only
  rw [if_neg (by omega)]
  dsimp only
  rw [land_mask8_keep _ _ _ h0 (by omega), land_mask8_keep _ _ _ h1 (by omega),
    land_mask8_drop _ _ _ h2 (by omega), land_mask8_drop _ _ _ h3 (by omega)]
  congr 1
  rw [decide_eq_decide, Ipv4Addr.mk.injEq]
  omega

/-- `contains` of the multicast subnet tests the top four bits of the first
octet for `1110`, i.e. a first octet between 224 and 239. -/
theorem multicast_contains_iff (a : Ipv4Addr) (ha : a.valid) :
    Ipv4Subnet.multicast.contains a = some (decide (224 ≤ a.o0 ∧ a.o0 ≤ 239)) := by
  obtain ⟨h0, h1, h2, h3⟩ := ha
  unfold Ipv4Subnet.contains Ipv4Subnet.multicast Ipv4Addr.apply_netmask
  dsimp only
  rw [if_neg (by omega)]
  dsimp only
  rw [land_mask8 _ _ _ h0, land_mask8_drop _ _ _ h1 (by omega),
    land_mask8_drop _ _ _ h2 (by omega), land_mask8_drop _ _ _ h3 (by omega)]
  congr 1
  rw [decide_eq_decide, Ipv4Addr.mk.injEq]
  have he : 8 - (4 - 0) = 4 := by omega
  rw [he]
  omega

/-- C3: `apply_netmask` fails with `OutOfRange` exactly when the netmask
length exceeds the address width, and succeeds otherwise; correspondingly
`Ipv4Subnet::new` / `Ipv6Subnet::new` return `NetmaskOutOfRange` whenever the
netmask length exceeds the address width. -/
theorem C3_out_of_range_error :
    (∀ (a : Ipv4Addr) (n : Nat),
      (n > 32 → a.apply_netmask n = .error (.OutOfRange n 32)) ∧
      (n ≤ 32 → (a.apply_netmask n).isOk = true)) ∧
    (∀ (a : Ipv6Addr) (n : Nat),
      (n > 128 → a.apply_netmask n = .error (.OutOfRange n 128)) ∧
      (n ≤ 128 → (a.apply_netmask n).isOk = true)) ∧
    (∀ (a : Ipv4Addr) (n : Nat), n > 32 →
      Ipv4Subnet.new a n = .error (.NetmaskOutOfRange n)) ∧
    (∀ (a : Ipv6Addr) (n : Nat), n > 128 →
      Ipv6Subnet.new a n = .error (.NetmaskOutOfRange n)) := by
  refine ⟨fun a n => ⟨fun hn => ?_, fun hn => ?_⟩,
    fun a n => ⟨fun hn => ?_, fun hn => ?_⟩, fun a n hn => ?_, fun a n hn => ?_⟩
  · unfold Ipv4Addr.apply_netmask
    rw [if_pos hn]
  · unfold Ipv4Addr.apply_netmask
    rw [if_neg (by omega)]
    rfl
  · unfold Ipv6Addr.apply_netmask
    rw [if_pos hn]
  · unfold Ipv6Addr.apply_netmask
    rw [if_neg (by omega)]
    rfl
  · unfold Ipv4Subnet.new Ipv4Addr.apply_netmask
    rw [if_pos hn]
  · unfold Ipv6Subnet.new Ipv6Addr.apply_netmask
    rw [if_pos hn]

/-- Witness for C3 at concrete inputs: netmask length 33 fails on IPv4 and
32 succeeds; 129 fails on IPv6 and 128 succeeds. -/
theorem C3_witness :
    ((33 : Nat) > 32 ∧
      (⟨170, 170, 170, 170⟩ : Ipv4Addr).apply_netmask 33 = .error (.OutOfRange 33 32)) ∧
    ((32 : Nat) ≤ 32 ∧ ((⟨170, 170, 170, 170⟩ : Ipv4Addr).apply_netmask 32).isOk = true) ∧
    ((129 : Nat) > 128 ∧
      (⟨0, 0, 0, 0, 0, 0, 0, 0⟩ : Ipv6Addr).apply_netmask 129 = .error (.OutOfRange 129 128)) ∧
    ((33 : Nat) > 32 ∧
      Ipv4Subnet.new ⟨255, 255, 255, 255⟩ 33 = .error (.NetmaskOutOfRange 33)) ∧
    ((129 : Nat) > 128 ∧
      Ipv6Subnet.new ⟨0, 0, 0, 0, 0, 0, 0, 1⟩ 129 = .error (.NetmaskOutOfRange 129)) :=
  ⟨⟨by decide, (C3_out_of_range_error.1 ⟨170, 170, 170, 170⟩ 33).1 (by decide)⟩,
   ⟨by decide, (C3_out_of_range_error.1 ⟨170, 170, 170, 170⟩ 32).2 (by decide)⟩,
   ⟨by decide, (C3_out_of_range_error.2.1 ⟨0, 0, 0, 0, 0, 0, 0, 0⟩ 129).1 (by decide)⟩,
   ⟨by decide, C3_out_of_range_error.2.2.1 ⟨255, 255, 255, 255⟩ 33 (by decide)⟩,
   ⟨by decide, C3_out_of_range_error.2.2.2 ⟨0, 0, 0, 0, 0, 0, 0, 1⟩ 129 (by decide)⟩⟩

/-- C4: the classifier subnets recognise exactly the loopback, link-local and
multicast ranges: `loopback().contains(a)` holds iff the first octet is 127,
`link_local().contains(a)` iff the first two octets are 169.254, and
`multicast().contains(a)` iff the first octet is between 224 and 239. -/
theorem C4_classifier_ranges (a : Ipv4Addr) (ha : a.valid) :
    Ipv4Subnet.loopback.contains a = some (decide (a.o0 = 127)) ∧
    Ipv4Subnet.link_local.contains a = some (decide (a.o0 = 169 ∧ a.o1 = 254)) ∧
    Ipv4Subnet.multicast.contains a = some (decide (224 ≤ a.o0 ∧ a.o0 ≤ 239)) :=
  ⟨loopback_contains_iff a ha, link_local_contains_iff a ha, multicast_contains_iff a ha⟩

/-- Witness for C4 at the concrete address 230.1.2.3 (multicast, neither
loopback nor link-local). -/
theorem C4_witness :
    (⟨230, 1, 2, 3⟩ : Ipv4Addr).valid ∧
    Ipv4Subnet.loopback.contains ⟨230, 1, 2, 3⟩ = some (decide ((230 : Nat) = 127)) ∧
    Ipv4Subnet.link_local.contains ⟨230, 1, 2, 3⟩
      = some (decide ((230 : Nat) = 169 ∧ (1 : Nat) = 254)) ∧
    Ipv4Subnet.multicast.contains ⟨230, 1, 2, 3⟩
      = some (decide ((224 : Nat) ≤ 230 ∧ (230 : Nat) ≤ 239)) :=
  ⟨by decide, C4_classifier_ranges ⟨230, 1, 2, 3⟩ (by decide)⟩

/-- `Ipv4Subnet::new` rejects any input violating the invariant. -/
theorem Ipv4Subnet.new_not_inv4 (a : Ipv4Addr) (n : Nat)
    (h : ¬ (Ipv4Subnet.mk a n).inv) : (Ipv4Subnet.new a n).isOk = false := by
  unfold Ipv4Subnet.inv at h
  dsimp only at h
  unfold Ipv4Subnet.new
  by_cases hn : n > 32
  · unfold Ipv4Addr.apply_netmask
    rw [if_pos hn]
    rfl
  · rcases hm : a.apply_netmask n with e | masked
    · exfalso
      unfold Ipv4Addr.apply_netmask at hm
      rw [if_neg hn] at hm
      cases hm
    · dsimp only
      by_cases hne : masked ≠ a
      · rw [if_pos hne]
        rfl
      · exfalso
        push_neg at hne
        subst hne
        exact h ⟨by omega, hm⟩

/-- `Ipv6Subnet::new` rejects any input violating the invariant. -/
theorem Ipv6Subnet.new_not_inv6 (a : Ipv6Addr) (n : Nat)
    (h : ¬ (Ipv6Subnet.mk a n).inv) : (Ipv6Subnet.new a n).isOk = false := by
  unfold Ipv6Subnet.inv at h
  dsimp only at h
  unfold Ipv6Subnet.new
  by_cases hn : n > 128
  · unfold Ipv6Addr.apply_netmask
    rw [if_pos hn]
    rfl
  · rcases hm : a.apply_netmask n with e | masked
    · exfalso
      unfold Ipv6Addr.apply_netmask at hm
      rw [if_neg hn] at hm
      cases hm
    · dsimp only
      by_cases hne : masked ≠ a
      · rw [if_pos hne]
        rfl
      · exfalso
        push_neg at hne
        subst hne
        exact h ⟨by omega, hm⟩

/-- C5: every subnet produced by a public constructor (`new`, `loopback`,
`link_local`, `multicast`) satisfies the invariant that the netmask length is
within the address width and the base address has no one-bits beyond it, and
`new` rejects every input violating the invariant instead of constructing a
value. -/
theorem C5_subnet_invariant :
    ((∀ (a : Ipv4Addr) (n : Nat) (s : Ipv4Subnet), Ipv4Subnet.new a n = .ok s → s.inv) ∧
      Ipv4Subnet.loopback.inv ∧ Ipv4Subnet.link_local.inv ∧ Ipv4Subnet.multicast.inv ∧
      (∀ (a : Ipv4Addr) (n : Nat), ¬ (Ipv4Subnet.mk a n).inv →
        (Ipv4Subnet.new a n).isOk = false)) ∧
    ((∀ (a : Ipv6Addr) (n : Nat) (s : Ipv6Subnet), Ipv6Subnet.new a n = .ok s → s.inv) ∧
      Ipv6Subnet.loopback.inv ∧ Ipv6Subnet.link_local.inv ∧ Ipv6Subnet.multicast.inv ∧
      (∀ (a : Ipv6Addr) (n : Nat), ¬ (Ipv6Subnet.mk a n).inv →
        (Ipv6Subnet.new a n).isOk = false)) :=
  ⟨⟨Ipv4Subnet.new_ok_inv4, by decide, by decide, by decide, Ipv4Subnet.new_not_inv4⟩,
   ⟨Ipv6Subnet.new_ok_inv6, by decide, by decide, by decide, Ipv6Subnet.new_not_inv6⟩⟩

/-- Witness for C5: `192.168.0.0/16` constructs successfully and satisfies
the invariant; `255.255.255.255/24` violates the invariant and is rejected. -/
theorem C5_witness :
    (Ipv4Subnet.new ⟨192, 168, 0, 0⟩ 16 = .ok ⟨⟨192, 168, 0, 0⟩, 16⟩ ∧
      (Ipv4Subnet.mk ⟨192, 168, 0, 0⟩ 16).inv) ∧
    (¬ (Ipv4Subnet.mk ⟨255, 255, 255, 255⟩ 24).inv ∧
      (Ipv4Subnet.new ⟨255, 255, 255, 255⟩ 24).isOk = false) ∧
    (Ipv6Subnet.new ⟨0xfe80, 0, 0, 0, 0, 0, 0, 0⟩ 16 = .ok ⟨⟨0xfe80, 0, 0, 0, 0, 0, 0, 0⟩, 16⟩ ∧
      (Ipv6Subnet.mk ⟨0xfe80, 0, 0, 0, 0, 0, 0, 0⟩ 16).inv) ∧
    (¬ (Ipv6Subnet.mk ⟨0, 0, 0, 0, 0, 0, 0, 1⟩ 127).inv ∧
      (Ipv6Subnet.new ⟨0, 0, 0, 0, 0, 0, 0, 1⟩ 127).isOk = false) :=
  ⟨⟨by decide, C5_subnet_invariant.1.1 ⟨192, 168, 0, 0⟩ 16 ⟨⟨192, 168, 0, 0⟩, 16⟩ (by decide)⟩,
   ⟨by decide, C5_subnet_invariant.1.2.2.2.2 ⟨255, 255, 255, 255⟩ 24 (by decide)⟩,
   ⟨by decide, C5_subnet_invariant.2.1 ⟨0xfe80, 0, 0, 0, 0, 0, 0, 0⟩ 16
      ⟨⟨0xfe80, 0, 0, 0, 0, 0, 0, 0⟩, 16⟩ (by decide)⟩,
   ⟨by decide, C5_subnet_invariant.2.2.2.2.2 ⟨0, 0, 0, 0, 0, 0, 0, 1⟩ 127 (by decide)⟩⟩

/-- `contains` is total on any `Ipv4Subnet` whose netmask length is in range. -/
theorem Ipv4Subnet.contains_isSome4 (s : Ipv4Subnet) (hs : s.netmask_bits ≤ 32)
    (a : Ipv4Addr) : (s.contains a).isSome = true := by
  unfold Ipv4Subnet.contains
  rcases hm : a.apply_netmask s.netmask_bits with e | masked
  · exfalso
    unfold Ipv4Addr.apply_netmask at hm
    rw [if_neg (by omega)] at hm
    cases hm
  · rfl

/-- `contains` is total on any `Ipv6Subnet` whose netmask length is in range. -/
theorem Ipv6Subnet.contains_isSome6 (s : Ipv6Subnet) (hs : s.netmask_bits ≤ 128)
    (a : Ipv6Addr) : (s.contains a).isSome = true := by
  unfold Ipv6Subnet.contains
  rcases hm : a.apply_netmask s.netmask_bits with e | masked
  · exfalso
    unfold Ipv6Addr.apply_netmask at hm
    rw [if_neg (by omega)] at hm
    cases hm
  · rfl

/-- C6: for every subnet obtained from a public constructor and every address
of the matching family, `contains` never panics: the internal `apply_netmask`
call always returns `Ok` (the `unwrap_result!` error branch, modelled as
`none`, is unreachable). -/
theorem C6_contains_never_panics :
    (∀ s : Ipv4Subnet,
      ((∃ a n, Ipv4Subnet.new a n = .ok s) ∨
        s = Ipv4Subnet.loopback ∨ s = Ipv4Subnet.link_local ∨ s = Ipv4Subnet.multicast) →
      ∀ addr : Ipv4Addr, (s.contains addr).isSome = true) ∧
    (∀ s : Ipv6Subnet,
      ((∃ a n, Ipv6Subnet.new a n = .ok s) ∨
        s = Ipv6Subnet.loopback ∨ s = Ipv6Subnet.link_local ∨ s = Ipv6Subnet.multicast) →
      ∀ addr : Ipv6Addr, (s.contains addr).isSome = true) := by
  constructor
  · intro s hs addr
    apply Ipv4Subnet.contains_isSome4
    rcases hs with ⟨a, n, h⟩ | h | h | h
    · exact (Ipv4Subnet.new_ok_inv4 a n s h).1
    · subst h; decide
    · subst h; decide
    · subst h; decide
  · intro s hs addr
    apply Ipv6Subnet.contains_isSome6
    rcases hs with ⟨a, n, h⟩ | h | h | h
    · exact (Ipv6Subnet.new_ok_inv6 a n s h).1
    · subst h; decide
    · subst h; decide
    · subst h; decide

/-- Witness for C6: the loopback subnets and a concrete address. -/
theorem C6_witness :
    (Ipv4Subnet.loopback.contains ⟨10, 1, 2, 3⟩).isSome = true ∧
    (Ipv6Subnet.loopback.contains ⟨0, 0, 0, 0, 0, 0, 0, 2⟩).isSome = true :=
  ⟨C6_contains_never_panics.1 Ipv4Subnet.loopback (Or.inr (Or.inl rfl)) ⟨10, 1, 2, 3⟩,
   C6_contains_never_panics.2 Ipv6Subnet.loopback (Or.inr (Or.inl rfl)) ⟨0, 0, 0, 0, 0, 0, 0, 2⟩⟩

/-! ### The proposed NAT-traversal API (src/proposed-api.rs)

`src/proposed-api.rs` declares only signatures: `RendezvousInfo`,
`MappedSocketAddr`, `PunchedUdpSocket::punch_hole`, `tcp_punch_hole`,
`MappedUdpSocket::map` and `MappingContext` have no bodies in the source.
The operations below are therefore modelled from the spec (sections 4.2,
4.3, 4.4, 6 and 7), as close to its words as possible. -/

/-- `SocketAddrV4`: an IPv4 address together with a 16-bit port. -/
structure SocketAddrV4 where
  ip : Ipv4Addr
  port : Nat
deriving DecidableEq, Repr

/-- `MappedSocketAddr` from `src/proposed-api.rs`: a mapped address plus the
`nat_restricted` flag. -/
structure MappedSocketAddr where
  addr : SocketAddrV4
  nat_restricted : Bool
deriving DecidableEq, Repr

/-- A 4-byte value (`[u8; 4]`), used for the rendezvous secret. -/
structure Bytes4 where
  b0 : Nat
  b1 : Nat
  b2 : Nat
  b3 : Nat
deriving DecidableEq, Repr

/-- `RendezvousInfo` from `src/proposed-api.rs`: the peer's candidate
endpoints and the 4-byte matching secret. -/
structure RendezvousInfo where
  endpoints : List MappedSocketAddr
  secret : Bytes4
deriving DecidableEq, Repr

/-- Modelled from the spec: the wire layout of one endpoint entry of the
Rendezvous Info payload, `(address:4 bytes, port:2 bytes, nat_restricted:1
byte)` (spec section 6); the encode/decode bodies are missing from src/. -/
def encodeEndpoint (e : MappedSocketAddr) : List Nat :=
  [e.addr.ip.o0, e.addr.ip.o1, e.addr.ip.o2, e.addr.ip.o3,
   e.addr.port / 256, e.addr.port % 256,
   if e.nat_restricted then 1 else 0]

/-- Modelled from the spec: the concatenated endpoint entries of the
Rendezvous Info payload. -/
def encodeEndpoints : List MappedSocketAddr → List Nat
  | [] => []
  | e :: rest => encodeEndpoint e ++ encodeEndpoints rest

/-- Modelled from the spec: Rendezvous Info serialization (spec section 6):
a count-prefixed ordered sequence of endpoint entries followed by the 4-byte
secret; the implementation is missing from src/. -/
def RendezvousInfo.encode (r : RendezvousInfo) : List Nat :=
  r.endpoints.length ::
    (encodeEndpoints r.endpoints ++ [r.secret.b0, r.secret.b1, r.secret.b2, r.secret.b3])

/-- Modelled from the spec: deserialization of `count` endpoint entries,
returning the decoded entries and the remaining input. -/
def decodeEndpoints : Nat → List Nat → Option (List MappedSocketAddr × List Nat)
  | 0, rest => some ([], rest)
  | c + 1, a0 :: a1 :: a2 :: a3 :: p0 :: p1 :: nr :: rest =>
    match decodeEndpoints c rest with
    | some (es, rest2) => some (⟨⟨⟨a0, a1, a2, a3⟩, p0 * 256 + p1⟩, nr != 0⟩ :: es, rest2)
    | none => none
  | _ + 1, _ => none

/-- Modelled from the spec: Rendezvous Info deserialization, the inverse of
`RendezvousInfo.encode`. -/
def RendezvousInfo.decode (bytes : List Nat) : Option RendezvousInfo :=
  match bytes with
  | [] => none
  | c :: rest =>
    match decodeEndpoints c rest with
    | some (es, [s0, s1, s2, s3]) => some ⟨es, ⟨s0, s1, s2, s3⟩⟩
    | _ => none

/-- Decoding the encoded endpoint list recovers the list and leaves the
trailing input untouched. -/
theorem decodeEndpoints_encodeEndpoints (es : List MappedSocketAddr) (tail : List Nat) :
    decodeEndpoints es.length (encodeEndpoints es ++ tail) = some (es, tail) := by
  induction es with
  | nil => rfl
  | cons e rest ih =>
    obtain ⟨⟨⟨a0, a1, a2, a3⟩, port⟩, nrb⟩ := e
    have hport : port / 256 * 256 + port % 256 = port := by omega
    cases nrb <;>
      simp [encodeEndpoints, encodeEndpoint, decodeEndpoints, ih, hport]

/-- C7: Rendezvous Info serialization round-trips exactly: decoding the
encoding of any `RendezvousInfo` with a non-empty endpoint list yields the
original value. -/
theorem C7_rendezvous_roundtrip (r : RendezvousInfo) (h : r.endpoints ≠ []) :
    RendezvousInfo.decode r.encode = some r := by
  obtain ⟨es, ⟨s0, s1, s2, s3⟩⟩ := r
  unfold RendezvousInfo.encode RendezvousInfo.decode
  dsimp only
  rw [decodeEndpoints_encodeEndpoints]

/-- Witness for C7: a one-endpoint payload round-trips. -/
theorem C7_witness :
    (RendezvousInfo.mk [⟨⟨⟨192, 168, 1, 2⟩, 5000⟩, true⟩] ⟨9, 8, 7, 6⟩).endpoints ≠ [] ∧
    RendezvousInfo.decode
        (RendezvousInfo.mk [⟨⟨⟨192, 168, 1, 2⟩, 5000⟩, true⟩] ⟨9, 8, 7, 6⟩).encode
      = some (RendezvousInfo.mk [⟨⟨⟨192, 168, 1, 2⟩, 5000⟩, true⟩] ⟨9, 8, 7, 6⟩) :=
  ⟨by decide,
   C7_rendezvous_roundtrip (RendezvousInfo.mk [⟨⟨⟨192, 168, 1, 2⟩, 5000⟩, true⟩] ⟨9, 8, 7, 6⟩)
     (by decide)⟩

/-- Modelled from the spec: a UDP probe datagram as the puncher sees it — a
source address and the 4-byte secret carried in its payload (spec section
4.4); the puncher implementation is missing from src/. -/
structure Datagram where
  src : SocketAddrV4
  payload : Bytes4
deriving DecidableEq, Repr

/-- Modelled from the spec: the progress of the UDP hole puncher
(Probing, then Connected on the first valid match). -/
inductive PunchProgress where
  | Probing : PunchProgress
  | Connected : SocketAddrV4 → PunchProgress
deriving DecidableEq, Repr

/-- Modelled from the spec (section 4.4 matching rule): an incoming datagram
is accepted as a match only if its payload carries the peer's secret; since
intermediate NATs rewrite ports, secret matching takes priority and any
source address is accepted once the secret matches. -/
def acceptsProbe (theirSecret : Bytes4) (d : Datagram) : Bool :=
  d.payload == theirSecret

/-- Modelled from the spec: one step of the UDP puncher on an incoming
datagram; redundant matches after the first are ignored. -/
def punchStep (theirSecret : Bytes4) (st : PunchProgress) (d : Datagram) : PunchProgress :=
  match st with
  | .Probing => if acceptsProbe theirSecret d then .Connected d.src else .Probing
  | .Connected p => .Connected p

/-- Modelled from the spec: the UDP puncher processing a sequence of
incoming datagrams in arrival order, starting from `Probing`. -/
def punchRun (theirSecret : Bytes4) (ds : List Datagram) : PunchProgress :=
  ds.foldl (punchStep theirSecret) .Probing

/-- C8: a puncher expecting secret `s1` never accepts a probe datagram
carrying a different secret `s2`, regardless of its source address and of
arrival order; it transitions to `Connected` only on a datagram whose
payload carries the peer's secret. -/
theorem C8_wrong_secret_never_matches :
    (∀ s1 s2 : Bytes4, s1 ≠ s2 → ∀ ds : List Datagram,
      (∀ d ∈ ds, d.payload = s2) → punchRun s1 ds = .Probing) ∧
    (∀ (s1 : Bytes4) (d : Datagram) (p : SocketAddrV4),
      punchStep s1 .Probing d = .Connected p → d.payload = s1) := by
  constructor
  · intro s1 s2 hne ds hds
    induction ds with
    | nil => rfl
    | cons d rest ih =>
      have hd : d.payload = s2 := hds d (List.mem_cons_self d rest)
      have hstep : punchStep s1 .Probing d = .Probing := by
        unfold punchStep acceptsProbe
        rw [hd]
        have hbeq : (s2 == s1) = false := by
          rw [beq_eq_false_iff_ne]
          exact fun hc => hne hc.symm
        rw [hbeq]
        rfl
      unfold punchRun at ih ⊢
      rw [List.foldl_cons, hstep]
      exact ih fun d2 hd2 => hds d2 (List.mem_cons_of_mem d hd2)
  · intro s1 d p h
    unfold punchStep acceptsProbe at h
    by_cases hb : (d.payload == s1) = true
    · exact eq_of_beq hb
    · rw [Bool.not_eq_true] at hb
      rw [hb] at h
      simp at h

/-- Witness for C8: a puncher expecting `⟨1,2,3,4⟩` ignores a datagram
carrying `⟨5,6,7,8⟩`. -/
theorem C8_witness :
    (Bytes4.mk 1 2 3 4 ≠ Bytes4.mk 5 6 7 8) ∧
    punchRun ⟨1, 2, 3, 4⟩ [⟨⟨⟨8, 8, 8, 8⟩, 53⟩, ⟨5, 6, 7, 8⟩⟩] = .Probing :=
  ⟨by decide,
   C8_wrong_secret_never_matches.1 ⟨1, 2, 3, 4⟩ ⟨5, 6, 7, 8⟩ (by decide)
     [⟨⟨⟨8, 8, 8, 8⟩, 53⟩, ⟨5, 6, 7, 8⟩⟩] (by decide)⟩

/-- Modelled from the spec: the network I/O actions a puncher can emit —
UDP probe datagrams and TCP simultaneous-open connect attempts. -/
inductive IOAction where
  | SendProbe : SocketAddrV4 → Bytes4 → IOAction
  | TcpConnectAttempt : SocketAddrV4 → IOAction
deriving DecidableEq, Repr

/-- Modelled from the spec (section 7 error taxonomy): the punch-time
errors relevant to these claims. -/
inductive PunchError where
  | InvalidRendezvousInfo : PunchError
  | PunchTimeout : PunchError
deriving DecidableEq, Repr

/-- `PunchedUdpSocket` from `src/proposed-api.rs` (the socket handle itself
carries no observable state beyond the peer address). -/
structure PunchedUdpSocket where
  peer_addr : SocketAddrV4
deriving DecidableEq, Repr

/-- Modelled from the spec: `PunchedUdpSocket::punch_hole`, whose body is
missing from src/ (only the signature appears in `src/proposed-api.rs`).
Per spec sections 4.3/4.4 and 7, an empty peer endpoint list is rejected as
`InvalidRendezvousInfo` before probing starts; otherwise the puncher probes
every candidate and processes incoming datagrams under the secret-matching
rule.  The second component is the trace of network I/O performed. -/
def punch_hole (ourSecret : Bytes4) (their_rendezvous_info : RendezvousInfo)
    (incoming : List Datagram) :
    Except PunchError PunchedUdpSocket × List IOAction :=
  match their_rendezvous_info.endpoints with
  | [] => (.error .InvalidRendezvousInfo, [])
  | e :: rest =>
    let probes := (e :: rest).map fun ep => IOAction.SendProbe ep.addr ourSecret
    match punchRun their_rendezvous_info.secret incoming with
    | .Connected p => (.ok ⟨p⟩, probes)
    | .Probing => (.error .PunchTimeout, probes)

/-- Modelled from the spec: `tcp_punch_hole`, whose body is missing from
src/.  An empty peer endpoint list is rejected before any connect attempt;
otherwise simultaneous-open connect attempts are issued toward every
candidate and the first completed handshake (if any) wins. -/
def tcp_punch_hole (their_rendezvous_info : RendezvousInfo)
    (firstHandshake : Option SocketAddrV4) :
    Except PunchError SocketAddrV4 × List IOAction :=
  match their_rendezvous_info.endpoints with
  | [] => (.error .InvalidRendezvousInfo, [])
  | e :: rest =>
    let attempts := (e :: rest).map fun ep => IOAction.TcpConnectAttempt ep.addr
    match firstHandshake with
    | some p => (.ok p, attempts)
    | none => (.error .PunchTimeout, attempts)

/-- C9: a `RendezvousInfo` with an empty endpoint list is rejected by both
punchers with `InvalidRendezvousInfo` before any network I/O is attempted
(the emitted I/O trace is empty). -/
theorem C9_empty_endpoints_rejected (r : RendezvousInfo) (h : r.endpoints = []) :
    (∀ (ourSecret : Bytes4) (incoming : List Datagram),
      punch_hole ourSecret r incoming = (.error .InvalidRendezvousInfo, [])) ∧
    (∀ firstHandshake : Option SocketAddrV4,
      tcp_punch_hole r firstHandshake = (.error .InvalidRendezvousInfo, [])) := by
  refine ⟨fun ourSecret incoming => ?_, fun firstHandshake => ?_⟩
  · unfold punch_hole
    rw [h]
  · unfold tcp_punch_hole
    rw [h]

/-- Witness for C9: the empty-endpoint payload is rejected with an empty
I/O trace by both punchers. -/
theorem C9_witness :
    (RendezvousInfo.mk [] ⟨1, 2, 3, 4⟩).endpoints = [] ∧
    punch_hole ⟨0, 0, 0, 0⟩ (RendezvousInfo.mk [] ⟨1, 2, 3, 4⟩) []
      = (.error .InvalidRendezvousInfo, []) ∧
    tcp_punch_hole (RendezvousInfo.mk [] ⟨1, 2, 3, 4⟩) (some ⟨⟨1, 1, 1, 1⟩, 80⟩)
      = (.error .InvalidRendezvousInfo, []) :=
  ⟨rfl,
   (C9_empty_endpoints_rejected (RendezvousInfo.mk [] ⟨1, 2, 3, 4⟩) rfl).1 ⟨0, 0, 0, 0⟩ [],
   (C9_empty_endpoints_rejected (RendezvousInfo.mk [] ⟨1, 2, 3, 4⟩) rfl).2
     (some ⟨⟨1, 1, 1, 1⟩, 80⟩)⟩

/-- `HolePunchServerAddr` from `src/proposed-api.rs`; the UPnP gateway
handle is opaque and modelled by an identifier. -/
inductive HolePunchServerAddr where
  | Simple : SocketAddrV4 → HolePunchServerAddr
  | IgdGateway : Nat → HolePunchServerAddr
deriving DecidableEq, Repr

/-- `MappingContext` from `src/proposed-api.rs`: the registry of known
servers and gateways (the `RwLock` is irrelevant to these claims). -/
structure MappingContext where
  servers : List HolePunchServerAddr
deriving DecidableEq, Repr

/-- Modelled from the spec (section 7): only a local bind failure is fatal
to mapped-socket construction. -/
inductive MapError where
  | BindFailed : MapError
deriving DecidableEq, Repr

/-- Modelled from the spec (sections 3 and 4.2): the subnet-classifier
filter applied to the local bind address, built on the classifier subnets of
`src/subnetting/ipv4.rs` — loopback, link-local and multicast candidates
are excluded. -/
def externallyUsable (a : Ipv4Addr) : Bool :=
  !(Ipv4Subnet.loopback.contains a == some true) &&
  !(Ipv4Subnet.link_local.contains a == some true) &&
  !(Ipv4Subnet.multicast.contains a == some true)

/-- Modelled from the spec: one discovery step of section 4.2 — a failed or
timed-out server contributes nothing (non-fatal), a UPnP gateway mapping is
authoritative (`nat_restricted = false`), a reflection-observed address is
restricted (`nat_restricted = true`). -/
def discoverStep (discover : HolePunchServerAddr → Option SocketAddrV4)
    (srv : HolePunchServerAddr) (acc : List MappedSocketAddr) : List MappedSocketAddr :=
  match srv, discover srv with
  | _, none => acc
  | .IgdGateway _, some ext => ⟨ext, false⟩ :: acc
  | .Simple _, some ext => ⟨ext, true⟩ :: acc

/-- Modelled from the spec: `MappedUdpSocket::map` / `MappedTcpSocket::map`,
whose bodies are missing from src/ (only signatures appear in
`src/proposed-api.rs`).  Per spec section 4.2: the bound local address, when
it passes the subnet-classifier filter, is always included as a restricted
candidate; every context server is queried and per-server failures are
absorbed; the operation fails only if the bind itself failed (`bindResult =
none`).  `discover` gives each server's discovery outcome. -/
def mapSocket (bindResult : Option SocketAddrV4) (mc : MappingContext)
    (discover : HolePunchServerAddr → Option SocketAddrV4) :
    Except MapError (List MappedSocketAddr) :=
  match bindResult with
  | none => .error .BindFailed
  | some boundAddr =>
    let base := if externallyUsable boundAddr.ip then
      [MappedSocketAddr.mk boundAddr true] else []
    let discovered := mc.servers.foldr (discoverStep discover) []
    .ok (base ++ discovered)

/-- With no responding server, discovery contributes nothing. -/
theorem foldr_discoverStep_nil (servers : List HolePunchServerAddr)
    (discover : HolePunchServerAddr → Option SocketAddrV4)
    (h : ∀ srv ∈ servers, discover srv = none) :
    servers.foldr (discoverStep discover) [] = [] := by
  induction servers with
  | nil => rfl
  | cons srv rest ih =>
    rw [List.foldr_cons, ih fun s hs => h s (List.mem_cons_of_mem srv hs)]
    unfold discoverStep
    rw [h srv (List.mem_cons_self srv rest)]
    cases srv <;> rfl

/-- C10: mapped-socket construction fails only when the local bind itself
fails; with zero reachable servers and zero gateways it still succeeds, and
its endpoint list contains the socket's local bind address marked
`nat_restricted = true` (the local address passing the subnet-classifier
filter, per the spec's candidate filtering). -/
theorem C10_map_survives_no_servers :
    (∀ (bindResult : Option SocketAddrV4) (mc : MappingContext)
        (discover : HolePunchServerAddr → Option SocketAddrV4),
      (mapSocket bindResult mc discover).isOk = bindResult.isSome) ∧
    (∀ (boundAddr : SocketAddrV4) (mc : MappingContext)
        (discover : HolePunchServerAddr → Option SocketAddrV4),
      (∀ srv ∈ mc.servers, discover srv = none) →
      externallyUsable boundAddr.ip = true →
      mapSocket (some boundAddr) mc discover = .ok [MappedSocketAddr.mk boundAddr true]) := by
  constructor
  · intro bindResult mc discover
    cases bindResult <;> rfl
  · intro boundAddr mc discover hnone husable
    unfold mapSocket
    dsimp only
    rw [foldr_discoverStep_nil mc.servers discover hnone, if_pos husable]
    rfl

/-- Witness for C10: with an empty server list and a non-loopback,
non-link-local, non-multicast bind address, construction succeeds with
exactly the restricted local candidate; with a failed bind it fails. -/
theorem C10_witness :
    ((mapSocket none (MappingContext.mk []) fun _ => none).isOk
        = (none : Option SocketAddrV4).isSome) ∧
    externallyUsable (Ipv4Addr.mk 192 168 1 2) = true ∧
    mapSocket (some ⟨⟨192, 168, 1, 2⟩, 5000⟩) (MappingContext.mk []) (fun _ => none)
      = .ok [MappedSocketAddr.mk ⟨⟨192, 168, 1, 2⟩, 5000⟩ true] :=
  ⟨C10_map_survives_no_servers.1 none (MappingContext.mk []) fun _ => none,
   by decide,
   C10_map_survives_no_servers.2 ⟨⟨192, 168, 1, 2⟩, 5000⟩ (MappingContext.mk [])
     (fun _ => none) (by simp) (by decide)⟩

end NatTraversal
